import Mathlib

set_option maxRecDepth 8192

/-!
Verification of the storj metabase migration tool and the
`UpdateSegmentPieces` operation of the segment store.

The first part embeds the batch-insert SQL statement generators
(`preparObjectsSQL`, `preparSegmentsSQL`) of the migration tool.
-/

namespace Storj

/-!
## Definitions

The embedding of the migration tool (SQL statement generation, legacy
record types, the `Migrator` and its operations), the emitted-row-stream
views used by the theorems, concrete fixtures for witnesses and
counterexamples, and the spec-modelled segment store.
-/

/-- Byte strings (`[]byte` in the source) are modelled as lists of naturals. -/
abbrev Bytes := List Nat

/-- `const objectsArgs = 10`: number of SQL placeholders per objects row. -/
def objectsArgs : Nat := 10

/-- `const segmentsArgs = 8`: number of SQL placeholders per segments row. -/
def segmentsArgs : Nat := 8

/-- `const batchSize = 500`: default row-count flush threshold. -/
def defaultBatchSize : Nat := 500

/-- The raw-string head of the objects insert statement in `preparObjectsSQL`. -/
def objectsSQLHeader : String :=
  "\n\t\tINSERT INTO objects (\n\t\t\t\tproject_id, bucket_name, encrypted_path, version, stream_id,\n\t\t\t\tcreated_at, expires_at,\n\t\t\t\tstatus, segment_count,\n\t\t\t\tencrypted_metadata_nonce\n\t\t) VALUES \n\t"

/-- The raw-string head of the segments insert statement in `preparSegmentsSQL`. -/
def segmentsSQLHeader : String :=
  "INSERT INTO segments (\n\t\tstream_id, segment_position, root_piece_id,\n\t\tencrypted_key, encrypted_key_nonce,\n\t\tdata_size, inline_data,\n\t\tnode_aliases\n\t) VALUES \n\t"

/-- One parenthesized tuple of ten consecutive placeholders, as produced by
`fmt.Sprintf("($%d, $%d, $%d, $%d, $%d, $%d, $%d, $%d, $%d, $%d)", i, ..., i+9)`
(without the trailing comma, which the loop embedding appends separately). -/
def objectsTuple (i : Nat) : String :=
  "($" ++ toString i ++ ", $" ++ toString (i+1) ++ ", $" ++ toString (i+2) ++
  ", $" ++ toString (i+3) ++ ", $" ++ toString (i+4) ++ ", $" ++ toString (i+5) ++
  ", $" ++ toString (i+6) ++ ", $" ++ toString (i+7) ++ ", $" ++ toString (i+8) ++
  ", $" ++ toString (i+9) ++ ")"

/-- One parenthesized tuple of eight consecutive placeholders, as produced by
`fmt.Sprintf("($%d, $%d, $%d, $%d, $%d, $%d, $%d, $%d)", i, ..., i+7)`. -/
def segmentsTuple (i : Nat) : String :=
  "($" ++ toString i ++ ", $" ++ toString (i+1) ++ ", $" ++ toString (i+2) ++
  ", $" ++ toString (i+3) ++ ", $" ++ toString (i+4) ++ ", $" ++ toString (i+5) ++
  ", $" ++ toString (i+6) ++ ", $" ++ toString (i+7) ++ ")"

/-- The Go loop of `preparObjectsSQL`:
`for i < bound { sql += sprintf_tuple(i) + ","; i += objectsArgs }`.
The first argument is fuel bounding the number of iterations; the loop is run
with fuel at least `bound`, which always suffices because `i` grows by
`objectsArgs ≥ 1` per iteration. -/
def objectsLoop : Nat → Nat → Nat → String → String
  | 0, _, _, sql => sql
  | fuel+1, bound, i, sql =>
    if i < bound then objectsLoop fuel bound (i + objectsArgs) (sql ++ (objectsTuple i ++ ","))
    else sql

/-- The Go loop of `preparSegmentsSQL`:
`for i < bound { sql += sprintf_tuple(i) + ","; i += segmentsArgs }`,
with an iteration-count fuel as in `objectsLoop`. -/
def segmentsLoop : Nat → Nat → Nat → String → String
  | 0, _, _, sql => sql
  | fuel+1, bound, i, sql =>
    if i < bound then segmentsLoop fuel bound (i + segmentsArgs) (sql ++ (segmentsTuple i ++ ","))
    else sql

/-- Go `strings.TrimSuffix(s, suf)`: drop `suf` from the end of `s`
when `s` ends with it, otherwise return `s` unchanged. -/
def trimSuffix (s suf : String) : String :=
  if suf.data.isSuffixOf s.data then
    String.mk (s.data.take (s.data.length - suf.data.length))
  else s

/-- `preparObjectsSQL(batchSize)` from the source: header plus one
comma-terminated 10-placeholder tuple per row, with the final comma trimmed. -/
def preparObjectsSQL (n : Nat) : String :=
  trimSuffix (objectsLoop (n * objectsArgs) (n * objectsArgs) 1 objectsSQLHeader) ","

/-- `preparSegmentsSQL(batchSize)` from the source: header plus one
comma-terminated 8-placeholder tuple per row, with the final comma trimmed. -/
def preparSegmentsSQL (n : Nat) : String :=
  trimSuffix (segmentsLoop (n * segmentsArgs) (n * segmentsArgs) 1 segmentsSQLHeader) ","

/-- Modelled from the spec (§6, batch insert statement shape): the VALUES
list `($i,...),($i+k,...),...` with one tuple per requested row, placeholders
numbered consecutively starting at `i` and stepping by `argsPerRow` per row,
tuples separated by single commas and with no trailing comma. -/
def valuesTuples (tuple : Nat → String) (argsPerRow : Nat) : Nat → Nat → String
  | _, 0 => ""
  | i, 1 => tuple i
  | i, k+2 => tuple i ++ "," ++ valuesTuples tuple argsPerRow (i + argsPerRow) (k+1)

/-- The comma-terminated tuple chain accumulated by `objectsLoop`. -/
def objectsChain : Nat → Nat → String
  | _, 0 => ""
  | i, k+1 => (objectsTuple i ++ ",") ++ objectsChain (i + objectsArgs) k

/-- The comma-terminated tuple chain accumulated by `segmentsLoop`. -/
def segmentsChain : Nat → Nat → String
  | _, 0 => ""
  | i, k+1 => (segmentsTuple i ++ ",") ++ segmentsChain (i + segmentsArgs) k

/-- The last-segment section of `pb.StreamMeta` (`LastSegmentMeta`):
encryption key and its nonce. -/
structure SegmentMeta where
  encryptedKey : Bytes
  keyNonce : Bytes
deriving DecidableEq

/-- `pb.StreamMeta`: the stream-level metadata embedded in a legacy record,
with the declared total segment count and the optional last-segment section. -/
structure StreamMeta where
  numberOfSegments : Int
  lastSegmentMeta : Option SegmentMeta
deriving DecidableEq

/-- A serialized `pb.StreamMeta` blob, as stored in `Pointer.Metadata`:
either a well-formed encoding of a `StreamMeta`, or bytes on which
`pb.Unmarshal` fails. -/
inductive MetaBlob where
  | streamMeta (sm : StreamMeta)
  | garbage
deriving DecidableEq

/-- The remote-placement section of a legacy pointer (`pointer.Remote`),
keeping the root piece id used by the migration. -/
structure RemoteSegment where
  rootPieceId : Bytes
deriving DecidableEq

/-- `pb.Pointer`: one legacy record. Timestamps are abstracted as integers. -/
structure Pointer where
  metadata : MetaBlob
  creationDate : Int
  expirationDate : Int
  remote : Option RemoteSegment
  segmentSize : Int
  inlineSegment : Bytes
deriving DecidableEq

/-- A serialized `pb.Pointer` blob, as yielded by the legacy listing:
either a well-formed encoding or bytes on which `pb.Unmarshal` fails. -/
inductive PtrBlob where
  | pointer (p : Pointer)
  | garbage
deriving DecidableEq

/-- The error outcomes of the migration functions:
`pb.Unmarshal` failure, the `"unsupported case"` error for a declared
segment count of zero, a failed point `Get` of a non-last segment, and the
out-of-bounds index access on an empty listing key. -/
inductive MigError where
  | unmarshal
  | unsupportedCase
  | missingSegment
  | emptyKey
deriving DecidableEq

/-- `pb.Unmarshal(value, &pb.Pointer{})`. -/
def unmarshalPointer : PtrBlob → Except MigError Pointer
  | .pointer p => .ok p
  | .garbage => .error .unmarshal

/-- `pb.Unmarshal(pointer.Metadata, &pb.StreamMeta{})`. -/
def unmarshalStreamMeta : MetaBlob → Except MigError StreamMeta
  | .streamMeta sm => .ok sm
  | .garbage => .error .unmarshal

/-- `SegmentPosition{Part, Segment}` with `uint32` fields. -/
structure SegmentPosition where
  part : Nat
  segment : Nat
deriving DecidableEq

/-- Modelled from the spec: §4.3 Position Codec — order-preserving packing of
the (part, index) pair into a single scalar; the codec implementation is not
under src. -/
def SegmentPosition.encode (p : SegmentPosition) : Nat := p.part * 2 ^ 32 + p.segment

/-- Modelled from the spec: §4.4 Node-Alias Codec — a length-prefixed packed
binary form of the ordered alias sequence; the codec implementation is not
under src. -/
def NodeAliases.encode (aliases : List Nat) : Bytes := aliases.length :: aliases

/-- Go `int32(x)` applied to an `int64` value: two's-complement wraparound. -/
def toInt32 (x : Int) : Int := (x + 2 ^ 31) % 2 ^ 32 - 2 ^ 31

/-- Go `uint32(x)` applied to a non-negative `int64` value. -/
def toUInt32 (x : Int) : Nat := (x % 2 ^ 32).toNat

/-- One cell of a flat `[]interface{}` argument buffer handed to
`Metabase.Exec`. `committed` models the `Committed` object-status constant. -/
inductive Val where
  | uuid (u : Nat)
  | bytes (b : Bytes)
  | int (i : Int)
  | pos (p : Nat)
  | committed
  | meta (mb : MetaBlob)
deriving DecidableEq

/-- The legacy key built by `metainfo.CreatePath(ctx, projectID, segmentIndex,
bucket, path)`; the key's string encoding is external, so the key is kept
structured (`CreatePath` is injective on its arguments). -/
structure LegacyKey where
  projectID : Nat
  segmentIndex : Int
  bucket : Bytes
  path : Option Bytes
deriving DecidableEq

/-- `metainfo.CreatePath`. -/
def createPath (projectID : Nat) (segmentIndex : Int) (bucket : Bytes)
    (path : Option Bytes) : LegacyKey :=
  { projectID := projectID, segmentIndex := segmentIndex, bucket := bucket, path := path }

/-- The legacy pointer store: the recursive prefix listing that
`storage.ListV2Iterate` walks for the bucket (key/value pairs in key order,
pagination collapsed into a single pass), and the point-lookup `Get` used to
fetch non-last segment records. -/
structure PointerDB where
  listing : List (Bytes × PtrBlob)
  get : LegacyKey → Option PtrBlob

/-- The `Migrator` struct. `nextUUID` is the supply modelling `NewUUID`
(fresh ids `nextUUID`, `nextUUID+1`, ...), and `execLog` records every
`Metabase.Exec(sql, args...)` call in order; the storage engine itself is an
external collaborator assumed to execute each statement successfully. -/
structure Migrator where
  projectID : Nat
  bucketName : Bytes
  batchSize : Nat
  objectsSQL : String
  objects : List Val
  segmentsSQL : String
  segments : List Val
  nextUUID : Nat
  execLog : List (String × List Val)
deriving DecidableEq

/-- `NewMigrator`: empty buffers, default batch size, prebuilt batch SQL. -/
def NewMigrator (projectID : Nat) (bucketName : Bytes) : Migrator :=
  { projectID := projectID, bucketName := bucketName,
    batchSize := defaultBatchSize,
    objectsSQL := preparObjectsSQL defaultBatchSize, objects := [],
    segmentsSQL := preparSegmentsSQL defaultBatchSize, segments := [],
    nextUUID := 0, execLog := [] }

/-- Result of a migration step: Go methods mutate the receiver and return an
error, so an error outcome still carries the `Migrator` state. -/
inductive MigResult where
  | ok (m : Migrator)
  | err (e : MigError) (m : Migrator)
deriving DecidableEq

/-- `sendObjects`: flush the objects buffer (no-op when empty). -/
def Migrator.sendObjects (m : Migrator) : Migrator :=
  if m.objects.length = 0 then m
  else { m with execLog := m.execLog ++ [(m.objectsSQL, m.objects)], objects := [] }

/-- `sendSegments`: flush the segments buffer (no-op when empty). -/
def Migrator.sendSegments (m : Migrator) : Migrator :=
  if m.segments.length = 0 then m
  else { m with execLog := m.execLog ++ [(m.segmentsSQL, m.segments)], segments := [] }

/-- `pointer.Remote.RootPieceId.Bytes()` with the empty default for inline
segments (`pointer.Remote == nil`). -/
def rootPieceIDOf (ptr : Pointer) : Bytes :=
  match ptr.remote with
  | some r => r.rootPieceId
  | none => []

/-- The encrypted key and nonce taken from `streamMeta.LastSegmentMeta`,
defaulting to empty when that section is absent. -/
def keyNonceOf (sm : StreamMeta) : Bytes × Bytes :=
  match sm.lastSegmentMeta with
  | some l => (l.encryptedKey, l.keyNonce)
  | none => ([], [])

/-- The eight values appended to the segments buffer per segment row, in
source order: stream id, encoded position, root piece id, encrypted key,
key nonce, `int32(pointer.SegmentSize)`, inline payload, and the encoded
node-alias list — always `NodeAliases{1}.Encode()` in the source. -/
def segmentRowVals (streamID pos : Nat) (ptr : Pointer) (key nonce : Bytes) : List Val :=
  [.uuid streamID, .pos pos, .bytes (rootPieceIDOf ptr), .bytes key, .bytes nonce,
   .int (toInt32 ptr.segmentSize), .bytes ptr.inlineSegment,
   .bytes (NodeAliases.encode [1])]

/-- The ten values appended to the objects buffer per object row, in source
order: project id, bucket, encrypted path, version `-1`, stream id, creation
and expiration dates, `Committed`, declared segment count, raw metadata. -/
def objectRowVals (projectID : Nat) (bucketName encryptedPath : Bytes)
    (streamID : Nat) (ptr : Pointer) (segmentsCount : Int) : List Val :=
  [.uuid projectID, .bytes bucketName, .bytes encryptedPath, .int (-1), .uuid streamID,
   .int ptr.creationDate, .int ptr.expirationDate, .committed, .int segmentsCount,
   .meta ptr.metadata]

/-- The stream-meta argument resolution at the head of `insertSegment`: keep
the caller-supplied one (last segment), else unmarshal the pointer's own
metadata (non-last segments, called with `nil`). -/
def resolveStreamMeta (smo : Option StreamMeta) (ptr : Pointer) : Except MigError StreamMeta :=
  match smo with
  | some sm => .ok sm
  | none => unmarshalStreamMeta ptr.metadata

/-- `Migrator.insertSegment`. -/
def Migrator.insertSegment (m : Migrator) (streamID : Nat) (segmentIndex : Int)
    (ptr : Pointer) (smo : Option StreamMeta) : MigResult :=
  match resolveStreamMeta smo ptr with
  | .error e => .err e m
  | .ok sm =>
    let segmentPosition : SegmentPosition := { part := 0, segment := toUInt32 segmentIndex }
    let kn := keyNonceOf sm
    let row := segmentRowVals streamID segmentPosition.encode ptr kn.1 kn.2
    let m' := { m with segments := m.segments ++ row }
    if m'.batchSize ≤ m'.segments.length / segmentsArgs then .ok m'.sendSegments
    else .ok m'

/-- The fetch loop of `insertObject`
(`for i := int64(0); i < segmentsCount-1; i++ { ... }`), iterating the first
argument (remaining iteration count) with `j` the current index: reconstruct
the legacy key, `Get` and unmarshal the record, and insert its segment row
with a `nil` stream meta. -/
def Migrator.fetchLoop (db : PointerDB) (encryptedPath : Bytes) (streamID : Nat) :
    Nat → Nat → Migrator → MigResult
  | 0, _, m => .ok m
  | k+1, j, m =>
    match db.get (createPath m.projectID (j : Int) m.bucketName (some encryptedPath)) with
    | none => .err .missingSegment m
    | some value =>
      match unmarshalPointer value with
      | .error e => .err e m
      | .ok segmentPointer =>
        match m.insertSegment streamID (j : Int) segmentPointer none with
        | .err e m' => .err e m'
        | .ok m' => Migrator.fetchLoop db encryptedPath streamID k (j+1) m'

/-- `Migrator.insertObject`. -/
def Migrator.insertObject (m : Migrator) (db : PointerDB) (encryptedPath : Bytes)
    (ptr : Pointer) : MigResult :=
  match unmarshalStreamMeta ptr.metadata with
  | .error e => .err e m
  | .ok streamMeta =>
    let segmentsCount := streamMeta.numberOfSegments
    if segmentsCount = 0 then .err .unsupportedCase m
    else
      let streamID := m.nextUUID
      let row := objectRowVals m.projectID m.bucketName encryptedPath m.nextUUID ptr segmentsCount
      let m₁ := { m with nextUUID := m.nextUUID + 1, objects := m.objects ++ row }
      let m₂ := if m₁.batchSize ≤ m₁.objects.length / objectsArgs then m₁.sendObjects else m₁
      match m₂.insertSegment streamID (segmentsCount - 1) ptr (some streamMeta) with
      | .err e m' => .err e m'
      | .ok m₃ => Migrator.fetchLoop db encryptedPath streamID (segmentsCount - 1).toNat 0 m₃

/-- The body of the `ListV2Iterate` callback in `MigrateBucket`: unmarshal the
listed value, strip a leading `'/'` from the key (an unguarded `[0]` access,
so an empty key is the out-of-bounds `emptyKey` outcome), and insert the
object. `47` is the byte `'/'`. -/
def Migrator.processItem (m : Migrator) (db : PointerDB) (item : Bytes × PtrBlob) : MigResult :=
  match unmarshalPointer item.2 with
  | .error e => .err e m
  | .ok ptr =>
    match item.1 with
    | [] => .err .emptyKey m
    | c :: rest =>
      let encodedPath := if c = 47 then rest else item.1
      m.insertObject db encodedPath ptr

/-- The iteration of `ListV2Iterate` over the listed items: process each in
order, aborting on the first callback error (which `ListV2Iterate` and then
`MigrateBucket` propagate). -/
def Migrator.processItems (db : PointerDB) : List (Bytes × PtrBlob) → Migrator → MigResult
  | [], m => .ok m
  | item :: rest, m =>
    match m.processItem db item with
    | .err e m' => .err e m'
    | .ok m' => Migrator.processItems db rest m'

/-- The end-of-run flushes of `MigrateBucket` (source lines 93–107): each
non-empty buffer is submitted once with a statement sized to
`len(buffer) / args`, an empty buffer is skipped, and the two buffers are
handled independently. -/
def Migrator.finalFlush (m₁ : Migrator) : Migrator :=
  let m₂ := if m₁.objects.length ≠ 0 then
      { m₁ with execLog := m₁.execLog ++
          [(preparObjectsSQL (m₁.objects.length / objectsArgs), m₁.objects)] }
    else m₁
  let m₃ := if m₂.segments.length ≠ 0 then
      { m₂ with execLog := m₂.execLog ++
          [(preparSegmentsSQL (m₂.segments.length / segmentsArgs), m₂.segments)] }
    else m₂
  m₃

/-- `Migrator.MigrateBucket`: walk the listing, then flush each non-empty
buffer once with an insert statement sized to the rows it still holds. -/
def Migrator.migrateBucket (m : Migrator) (db : PointerDB) : MigResult :=
  match Migrator.processItems db db.listing m with
  | .err e m' => .err e m'
  | .ok m₁ => .ok m₁.finalFlush

/-- The claim-shaped segment rows for indices `j .. j+k-1` with literal
(unwrapped) encoded positions `(part 0, index i)`; coincides with the rows the
fetch loop emits whenever the indices stay below `2^32`. -/
def fetchedSegmentRows (sid : Nat) (fetched : Nat → Pointer) (fsm : Nat → StreamMeta) :
    Nat → Nat → List Val
  | _, 0 => []
  | j, k+1 =>
    segmentRowVals sid (SegmentPosition.encode ⟨0, j⟩) (fetched j)
      (keyNonceOf (fsm j)).1 (keyNonceOf (fsm j)).2
    ++ fetchedSegmentRows sid fetched fsm (j+1) k

/-- The rows of `fetchedSegmentRows` with the empty key and nonce that
non-last rows get when their records carry no last-segment section. -/
def fetchedSegmentRowsNoKey (sid : Nat) (fetched : Nat → Pointer) :
    Nat → Nat → List Val
  | _, 0 => []
  | j, k+1 =>
    segmentRowVals sid (SegmentPosition.encode ⟨0, j⟩) (fetched j) [] []
    ++ fetchedSegmentRowsNoKey sid fetched (j+1) k

/-- A legacy record declaring zero segments. -/
def zeroCountPtr : Pointer :=
  { metadata := .streamMeta { numberOfSegments := 0, lastSegmentMeta := none },
    creationDate := 1, expirationDate := 2, remote := none, segmentSize := 3,
    inlineSegment := [7] }

/-- Stream metadata declaring one segment with a last-segment section. -/
def oneSegMeta : StreamMeta :=
  { numberOfSegments := 1, lastSegmentMeta := some { encryptedKey := [9], keyNonce := [8] } }

/-- A valid single-segment legacy record. -/
def oneSegPtr : Pointer :=
  { metadata := .streamMeta oneSegMeta,
    creationDate := 4, expirationDate := 5, remote := some { rootPieceId := [6] },
    segmentSize := 10, inlineSegment := [] }

/-- A small migrator (batch threshold 5), as `NewMigrator` builds but with a
batch size small enough for concrete evaluation. -/
def testMigrator : Migrator :=
  { projectID := 11, bucketName := [3], batchSize := 5,
    objectsSQL := preparObjectsSQL 5, objects := [],
    segmentsSQL := preparSegmentsSQL 5, segments := [],
    nextUUID := 0, execLog := [] }

/-- A store whose listing has a zero-count record followed by a valid one. -/
def zeroThenValidDB : PointerDB :=
  { listing := [([47, 1], .pointer zeroCountPtr), ([47, 2], .pointer oneSegPtr)],
    get := fun _ => none }

/-- Stream metadata declaring two segments with a last-segment section. -/
def twoSegMeta : StreamMeta :=
  { numberOfSegments := 2, lastSegmentMeta := some { encryptedKey := [9], keyNonce := [8] } }

/-- The co-located legacy record of a two-segment object. -/
def twoSegLastPtr : Pointer :=
  { metadata := .streamMeta twoSegMeta, creationDate := 100, expirationDate := 200,
    remote := some { rootPieceId := [5] }, segmentSize := 77, inlineSegment := [] }

/-- The individually fetched record of segment 0, carrying no last-segment
section of its own. -/
def seg0Ptr : Pointer :=
  { metadata := .streamMeta { numberOfSegments := 2, lastSegmentMeta := none },
    creationDate := 0, expirationDate := 0, remote := none, segmentSize := 33,
    inlineSegment := [4] }

/-- The decoded metadata of `seg0Ptr`. -/
def seg0Meta : StreamMeta := { numberOfSegments := 2, lastSegmentMeta := none }

/-- A store with one two-segment object at key `/9`; the non-last segment
record is found by point lookup under the reconstructed legacy key. -/
def twoSegDB : PointerDB :=
  { listing := [([47, 9], .pointer twoSegLastPtr)],
    get := fun k => if k = createPath 11 0 [3] (some [9]) then some (.pointer seg0Ptr)
      else none }

/-- The metadata of a non-last segment record that (unexpectedly for the
legacy format) carries its own last-segment section. -/
def keyedSeg0Meta : StreamMeta :=
  { numberOfSegments := 2, lastSegmentMeta := some { encryptedKey := [7], keyNonce := [6] } }

/-- A non-last segment record carrying its own last-segment section. -/
def keyedSeg0Ptr : Pointer :=
  { metadata := .streamMeta keyedSeg0Meta, creationDate := 0, expirationDate := 0,
    remote := none, segmentSize := 1, inlineSegment := [] }

/-- Like `twoSegDB`, but segment 0's record carries its own key material. -/
def keyedSegDB : PointerDB :=
  { listing := [([47, 9], .pointer twoSegLastPtr)],
    get := fun k => if k = createPath 11 0 [3] (some [9]) then some (.pointer keyedSeg0Ptr)
      else none }

/-- A store with a single one-segment object at key `/2`. -/
def oneObjDB : PointerDB :=
  { listing := [([47, 2], .pointer oneSegPtr)], get := fun _ => none }

/-- Stream metadata declaring `2^32 + 1` segments, one more than the `uint32`
position index can distinguish. -/
def hugeMeta : StreamMeta :=
  { numberOfSegments := 2 ^ 32 + 1,
    lastSegmentMeta := some { encryptedKey := [9], keyNonce := [8] } }

/-- The co-located legacy record of the `2^32 + 1`-segment object. -/
def hugeLastPtr : Pointer :=
  { metadata := .streamMeta hugeMeta, creationDate := 100, expirationDate := 200,
    remote := some { rootPieceId := [5] }, segmentSize := 77, inlineSegment := [] }

/-- A store holding the `2^32 + 1`-segment object whose every non-last
segment record resolves (the point lookup succeeds on every key), so the
whole migration of the object succeeds. -/
def hugeDB : PointerDB :=
  { listing := [([47, 9], .pointer hugeLastPtr)],
    get := fun _ => some (.pointer seg0Ptr) }

/-- The state after `insertSegment` alone appends one row to `testMigrator`. -/
def oneSegM1 : Migrator :=
  { testMigrator with segments := segmentRowVals 0 (SegmentPosition.encode ⟨0, 0⟩) oneSegPtr [9] [8] }

/-- The migrator state after processing `oneObjDB` from `testMigrator`. -/
def oneObjM1 : Migrator :=
  { testMigrator with nextUUID := 1, objects := objectRowVals 11 [3] [2] 0 oneSegPtr 1, segments := segmentRowVals 0 (SegmentPosition.encode ⟨0, 0⟩) oneSegPtr [9] [8] }

/-- `true` exactly on the objects insert statements the migrator executes. -/
def isObjectsStmt (s : String) : Bool := s.data.head? = some '\n'

/-- Values of objects-classified statements in the execution log, in order. -/
def objectsFlushed : List (String × List Val) → List Val
  | [] => []
  | e :: r => (if isObjectsStmt e.1 then e.2 else []) ++ objectsFlushed r

/-- Values of segments-classified statements in the execution log, in order. -/
def segmentsFlushed : List (String × List Val) → List Val
  | [] => []
  | e :: r => (if isObjectsStmt e.1 then [] else e.2) ++ segmentsFlushed r

/-- The full stream of objects-row values the run has emitted so far:
flushed values followed by the still-buffered remainder. -/
def emittedObjects (m : Migrator) : List Val := objectsFlushed m.execLog ++ m.objects

/-- The full stream of segments-row values the run has emitted so far. -/
def emittedSegments (m : Migrator) : List Val := segmentsFlushed m.execLog ++ m.segments

/-- The migrator fields that no migration step changes. -/
def samePars (m' m : Migrator) : Prop :=
  m'.projectID = m.projectID ∧ m'.bucketName = m.bucketName ∧
  m'.batchSize = m.batchSize ∧ m'.objectsSQL = m.objectsSQL ∧
  m'.segmentsSQL = m.segmentsSQL

/-- The concatenation of the segment rows the fetch loop emits for indices
`j, j+1, ..., j+k-1`, each row built from the individually fetched record
`fetched i` whose metadata decodes to `fsm i`. -/
def segmentRowsFor (sid : Nat) (fetched : Nat → Pointer) (fsm : Nat → StreamMeta) :
    Nat → Nat → List Val
  | _, 0 => []
  | j, k+1 =>
    segmentRowVals sid (SegmentPosition.encode ⟨0, toUInt32 (j : Int)⟩) (fetched j)
      (keyNonceOf (fsm j)).1 (keyNonceOf (fsm j)).2
    ++ segmentRowsFor sid fetched fsm (j+1) k

/-- A piece (§3): piece number and storage-node identifier; node id `0`
models the zero `storj.NodeID`. Modelled from the spec. -/
structure Piece where
  number : Nat
  storageNode : Nat
deriving DecidableEq

/-- Modelled from the spec: the §4.1 ascending scan — for each position
`i > 0`, an equal adjacent number fails with `"duplicated piece number N"`
and a smaller one with `"pieces should be ordered"`, first failure winning. -/
def checkOrdered : List Piece → Option String
  | p :: q :: rest =>
    if q.number = p.number then
      some ("duplicated piece number " ++ toString q.number)
    else if q.number < p.number then some "pieces should be ordered"
    else checkOrdered (q :: rest)
  | _ => none

/-- Modelled from the spec: the §4.1 zero-node check —
`"piece number N is missing storage node id"` for the first piece whose
storage-node identifier is the zero value. -/
def checkNodeIDs : List Piece → Option String
  | [] => none
  | p :: rest =>
    if p.storageNode = 0 then
      some ("piece number " ++ toString p.number ++ " is missing storage node id")
    else checkNodeIDs rest

/-- Modelled from the spec: the §4.1 Piece-List Validator — pure, checks in
this order with the first failure winning: missing/empty (`"pieces
missing"`), the ascending scan, then the zero-node check. -/
def firstPieceFailure (ps : List Piece) : Option String :=
  if ps.isEmpty then some "pieces missing"
  else match checkOrdered ps with
    | some msg => some msg
    | none => checkNodeIDs ps

/-- The §4.1 validator with the field-qualified message
(`"OldPieces: ..."` / `"NewPieces: ..."`) exactly as the test expects. -/
def validatePieces (field : String) (ps : List Piece) : Option String :=
  (firstPieceFailure ps).map (fun msg => field ++ ": " ++ msg)

/-- A segment row (§3): identity (stream id, encoded position) plus payload
fields; `pieces` is the placement list mutated by the optimistic update.
Modelled from the spec. -/
structure Segment where
  streamID : Nat
  position : Nat
  rootPieceID : Bytes
  encryptedKey : Bytes
  encryptedKeyNonce : Bytes
  dataSize : Int
  inlineData : Bytes
  pieces : List Piece
deriving DecidableEq

/-- An object-level row, carried only so the frame condition "the operation
is a no-op with respect to object-level fields (size, count, status)" can be
stated. Modelled from the spec. -/
structure ObjectRow where
  streamID : Nat
  status : Nat
  segmentCount : Nat
  totalPlainSize : Int
  totalEncryptedSize : Int
deriving DecidableEq

/-- The metabase state seen by `UpdateSegmentPieces`. -/
structure MetabaseState where
  objects : List ObjectRow
  segments : List Segment
deriving DecidableEq

/-- The §6 error classes of the Segment Store API. -/
inductive UpdateError where
  | invalidRequest (msg : String)
  | segmentNotFound (msg : String)
  | valueChanged (msg : String)
deriving DecidableEq

/-- The options struct of `UpdateSegmentPieces`; stream id `0` models the
zero uuid (`"StreamID missing"`). -/
structure UpdateSegmentPiecesOpts where
  streamID : Nat
  position : Nat
  oldPieces : List Piece
  newPieces : List Piece
deriving DecidableEq

/-- Whether a stored segment row is the target of the update. -/
def segmentKeyMatch (opts : UpdateSegmentPiecesOpts) (s : Segment) : Bool :=
  s.streamID == opts.streamID && s.position == opts.position

/-- Modelled from the spec: §4.2 `UpdateSegmentPieces` — preconditions before
any storage access (stream id set, then `OldPieces`, then `NewPieces`
§4.1-valid); lookup by (stream id, position) failing with the not-found
error `"segment missing"` (text from the test); then the compare-and-swap:
the stored `pieces` becomes `NewPieces` only when it currently equals
`OldPieces`, otherwise the row is untouched and the call fails with the
concurrency-conflict error — whose text the test pins as
`"segment remote_pieces field was changed"`, not the spec §4.2 wording
`"segment pieces field was changed"`. -/
def updateSegmentPieces (st : MetabaseState) (opts : UpdateSegmentPiecesOpts) :
    Except UpdateError MetabaseState :=
  if opts.streamID = 0 then .error (.invalidRequest "StreamID missing")
  else match validatePieces "OldPieces" opts.oldPieces with
  | some msg => .error (.invalidRequest msg)
  | none => match validatePieces "NewPieces" opts.newPieces with
    | some msg => .error (.invalidRequest msg)
    | none =>
      match st.segments.find? (segmentKeyMatch opts) with
      | none => .error (.segmentNotFound "segment missing")
      | some seg =>
        if seg.pieces = opts.oldPieces then
          .ok { st with segments := st.segments.map (fun s =>
            if segmentKeyMatch opts s then { s with pieces := opts.newPieces } else s) }
        else .error (.valueChanged "segment remote_pieces field was changed")

/-- A stored single-piece placement list. -/
def storedPieces : List Piece := [{ number := 1, storageNode := 77 }]

/-- A well-formed list differing from `storedPieces`. -/
def otherPieces : List Piece := [{ number := 1, storageNode := 99 }]

/-- A well-formed two-piece replacement list. -/
def replacePieces : List Piece :=
  [{ number := 1, storageNode := 55 }, { number := 2, storageNode := 66 }]

/-- A stored segment row at (stream 5, position 1). -/
def seg51 : Segment :=
  { streamID := 5, position := 1, rootPieceID := [1], encryptedKey := [2],
    encryptedKeyNonce := [3], dataSize := 9, inlineData := [], pieces := storedPieces }

/-- The object-level row owning `seg51`. -/
def obj5 : ObjectRow :=
  { streamID := 5, status := 3, segmentCount := 1, totalPlainSize := 512,
    totalEncryptedSize := 1024 }

/-- A metabase state with one committed object and one segment. -/
def oneSegmentState : MetabaseState := { objects := [obj5], segments := [seg51] }

/-- A conflicting update: the supplied `OldPieces` differ from the stored
pieces of `seg51`. -/
def conflictOpts : UpdateSegmentPiecesOpts :=
  { streamID := 5, position := 1, oldPieces := otherPieces, newPieces := replacePieces }

/-- A matching update: `OldPieces` equal the stored pieces of `seg51`. -/
def matchOpts : UpdateSegmentPiecesOpts :=
  { streamID := 5, position := 1, oldPieces := storedPieces, newPieces := replacePieces }

/-- An update whose piece lists are invalid while the stream id is zero. -/
def zeroStreamOpts : UpdateSegmentPiecesOpts :=
  { streamID := 0, position := 0, oldPieces := [], newPieces := [] }

/-- An update whose `OldPieces` are out of order (stream id set). -/
def unorderedOpts : UpdateSegmentPiecesOpts :=
  { streamID := 5, position := 1,
    oldPieces := [{ number := 2, storageNode := 4 }, { number := 1, storageNode := 4 }],
    newPieces := storedPieces }

/-!
## Theorems
-/

theorem trimSuffix_append_comma (s : String) : trimSuffix (s ++ ",") "," = s := by
  have hdata : (s ++ ",").data = s.data ++ [','] := String.data_append s ","
  have hsuf : (","  : String).data.isSuffixOf (s ++ ",").data = true := by
    rw [hdata]
    simp [List.isSuffixOf_iff_suffix]
  rw [trimSuffix, if_pos hsuf, hdata]
  have hlen : (s.data ++ [',']).length - (","  : String).data.length = s.data.length := by
    simp
  rw [hlen, List.take_left]

theorem objectsLoop_chain (k : Nat) : ∀ (fuel j : Nat) (sql : String), k ≤ fuel →
    objectsLoop fuel (objectsArgs * (j + k)) (objectsArgs * j + 1) sql
      = sql ++ objectsChain (objectsArgs * j + 1) k := by
  induction k with
  | zero =>
    intro fuel j sql _
    match fuel with
    | 0 => simp [objectsLoop, objectsChain]
    | f + 1 =>
      rw [objectsLoop, if_neg (by simp only [objectsArgs]; omega)]
      simp [objectsChain]
  | succ k ih =>
    intro fuel j sql hfuel
    match fuel, hfuel with
    | f + 1, hfuel =>
      rw [objectsLoop, if_pos (by simp only [objectsArgs]; omega)]
      have harg : objectsArgs * j + 1 + objectsArgs = objectsArgs * (j + 1) + 1 := by
        simp only [objectsArgs]; omega
      have hbound : objectsArgs * (j + (k + 1)) = objectsArgs * ((j + 1) + k) := by
        simp only [objectsArgs]; omega
      rw [harg, hbound, ih f (j + 1) _ (by omega), objectsChain, harg]
      simp [String.append_assoc]

theorem segmentsLoop_chain (k : Nat) : ∀ (fuel j : Nat) (sql : String), k ≤ fuel →
    segmentsLoop fuel (segmentsArgs * (j + k)) (segmentsArgs * j + 1) sql
      = sql ++ segmentsChain (segmentsArgs * j + 1) k := by
  induction k with
  | zero =>
    intro fuel j sql _
    match fuel with
    | 0 => simp [segmentsLoop, segmentsChain]
    | f + 1 =>
      rw [segmentsLoop, if_neg (by simp only [segmentsArgs]; omega)]
      simp [segmentsChain]
  | succ k ih =>
    intro fuel j sql hfuel
    match fuel, hfuel with
    | f + 1, hfuel =>
      rw [segmentsLoop, if_pos (by simp only [segmentsArgs]; omega)]
      have harg : segmentsArgs * j + 1 + segmentsArgs = segmentsArgs * (j + 1) + 1 := by
        simp only [segmentsArgs]; omega
      have hbound : segmentsArgs * (j + (k + 1)) = segmentsArgs * ((j + 1) + k) := by
        simp only [segmentsArgs]; omega
      rw [harg, hbound, ih f (j + 1) _ (by omega), segmentsChain, harg]
      simp [String.append_assoc]

theorem objectsChain_eq_tuples (k : Nat) : ∀ i : Nat, 1 ≤ k →
    objectsChain i k = valuesTuples objectsTuple objectsArgs i k ++ "," := by
  induction k with
  | zero => intro i h; omega
  | succ k ih =>
    intro i _
    match k with
    | 0 => simp [objectsChain, valuesTuples]
    | k' + 1 =>
      rw [objectsChain, ih (i + objectsArgs) (by omega)]
      show _ = valuesTuples objectsTuple objectsArgs i (k' + 2) ++ ","
      rw [valuesTuples]
      simp [String.append_assoc]

theorem segmentsChain_eq_tuples (k : Nat) : ∀ i : Nat, 1 ≤ k →
    segmentsChain i k = valuesTuples segmentsTuple segmentsArgs i k ++ "," := by
  induction k with
  | zero => intro i h; omega
  | succ k ih =>
    intro i _
    match k with
    | 0 => simp [segmentsChain, valuesTuples]
    | k' + 1 =>
      rw [segmentsChain, ih (i + segmentsArgs) (by omega)]
      show _ = valuesTuples segmentsTuple segmentsArgs i (k' + 2) ++ ","
      rw [valuesTuples]
      simp [String.append_assoc]

theorem preparObjectsSQL_eq (n : Nat) (h : 1 ≤ n) :
    preparObjectsSQL n = objectsSQLHeader ++ valuesTuples objectsTuple objectsArgs 1 n := by
  have h0 : n * objectsArgs = objectsArgs * (0 + n) := by simp only [objectsArgs]; ring
  have h1 : (1 : Nat) = objectsArgs * 0 + 1 := by simp
  rw [preparObjectsSQL, h0, h1,
    objectsLoop_chain n (objectsArgs * (0 + n)) 0 objectsSQLHeader
      (by simp only [objectsArgs]; omega)]
  rw [objectsChain_eq_tuples n (objectsArgs * 0 + 1) h]
  rw [← String.append_assoc, trimSuffix_append_comma]

theorem preparSegmentsSQL_eq (n : Nat) (h : 1 ≤ n) :
    preparSegmentsSQL n = segmentsSQLHeader ++ valuesTuples segmentsTuple segmentsArgs 1 n := by
  have h0 : n * segmentsArgs = segmentsArgs * (0 + n) := by simp only [segmentsArgs]; ring
  have h1 : (1 : Nat) = segmentsArgs * 0 + 1 := by simp
  rw [preparSegmentsSQL, h0, h1,
    segmentsLoop_chain n (segmentsArgs * (0 + n)) 0 segmentsSQLHeader
      (by simp only [segmentsArgs]; omega)]
  rw [segmentsChain_eq_tuples n (segmentsArgs * 0 + 1) h]
  rw [← String.append_assoc, trimSuffix_append_comma]

theorem samePars.refl (m : Migrator) : samePars m m :=
  ⟨rfl, rfl, rfl, rfl, rfl⟩

theorem samePars.trans {a b c : Migrator} (h₁ : samePars a b) (h₂ : samePars b c) :
    samePars a c := by
  obtain ⟨p1, p2, p3, p4, p5⟩ := h₁
  obtain ⟨q1, q2, q3, q4, q5⟩ := h₂
  exact ⟨p1.trans q1, p2.trans q2, p3.trans q3, p4.trans q4, p5.trans q5⟩

theorem objectsFlushed_append (l₁ l₂ : List (String × List Val)) :
    objectsFlushed (l₁ ++ l₂) = objectsFlushed l₁ ++ objectsFlushed l₂ := by
  induction l₁ with
  | nil => simp [objectsFlushed]
  | cons e r ih => simp [objectsFlushed, ih]

theorem segmentsFlushed_append (l₁ l₂ : List (String × List Val)) :
    segmentsFlushed (l₁ ++ l₂) = segmentsFlushed l₁ ++ segmentsFlushed l₂ := by
  induction l₁ with
  | nil => simp [segmentsFlushed]
  | cons e r ih => simp [segmentsFlushed, ih]

theorem objectsLoop_extends (fuel : Nat) : ∀ (bound i : Nat) (sql : String),
    ∃ t, objectsLoop fuel bound i sql = sql ++ t := by
  induction fuel with
  | zero => intro bound i sql; exact ⟨"", by simp [objectsLoop]⟩
  | succ f ih =>
    intro bound i sql
    rw [objectsLoop]
    by_cases h : i < bound
    · rw [if_pos h]
      obtain ⟨t, ht⟩ := ih bound (i + objectsArgs) (sql ++ (objectsTuple i ++ ","))
      exact ⟨(objectsTuple i ++ ",") ++ t, by rw [ht, String.append_assoc]⟩
    · rw [if_neg h]
      exact ⟨"", by simp⟩

theorem segmentsLoop_extends (fuel : Nat) : ∀ (bound i : Nat) (sql : String),
    ∃ t, segmentsLoop fuel bound i sql = sql ++ t := by
  induction fuel with
  | zero => intro bound i sql; exact ⟨"", by simp [segmentsLoop]⟩
  | succ f ih =>
    intro bound i sql
    rw [segmentsLoop]
    by_cases h : i < bound
    · rw [if_pos h]
      obtain ⟨t, ht⟩ := ih bound (i + segmentsArgs) (sql ++ (segmentsTuple i ++ ","))
      exact ⟨(segmentsTuple i ++ ",") ++ t, by rw [ht, String.append_assoc]⟩
    · rw [if_neg h]
      exact ⟨"", by simp⟩

theorem head_trimSuffix_comma (s : String) (c : Char) (h : s.data.head? = some c)
    (hlen : 2 ≤ s.data.length) : (trimSuffix s ",").data.head? = some c := by
  rw [trimSuffix]
  by_cases hs : (","  : String).data.isSuffixOf s.data
  · rw [if_pos hs]
    match hd : s.data, hlen with
    | x :: y :: rest, _ =>
      rw [hd] at h
      simp at h
      have : (x :: y :: rest).length - (","  : String).data.length
          = (y :: rest).length := by simp
      rw [this]
      simp [List.take_succ_cons, h]
  · rw [if_neg hs]
    exact h

theorem head_append_of_head (a b : String) (c : Char) (h : a.data.head? = some c) :
    (a ++ b).data.head? = some c := by
  rw [String.data_append]
  match hd : a.data, h with
  | x :: rest, h => simp at h; simp [h]

theorem isObjectsStmt_preparObjectsSQL (n : Nat) :
    isObjectsStmt (preparObjectsSQL n) = true := by
  rw [preparObjectsSQL]
  obtain ⟨t, ht⟩ := objectsLoop_extends (n * objectsArgs) (n * objectsArgs) 1 objectsSQLHeader
  rw [ht, isObjectsStmt]
  have hhead : (objectsSQLHeader ++ t).data.head? = some '\n' :=
    head_append_of_head _ _ _ (by decide)
  have hlen : 2 ≤ (objectsSQLHeader ++ t).data.length := by
    rw [String.data_append, List.length_append]
    have : 2 ≤ objectsSQLHeader.data.length := by decide
    omega
  rw [head_trimSuffix_comma _ _ hhead hlen]
  simp

theorem isObjectsStmt_preparSegmentsSQL (n : Nat) :
    isObjectsStmt (preparSegmentsSQL n) = false := by
  rw [preparSegmentsSQL]
  obtain ⟨t, ht⟩ := segmentsLoop_extends (n * segmentsArgs) (n * segmentsArgs) 1 segmentsSQLHeader
  rw [ht, isObjectsStmt]
  have hhead : (segmentsSQLHeader ++ t).data.head? = some 'I' :=
    head_append_of_head _ _ _ (by decide)
  have hlen : 2 ≤ (segmentsSQLHeader ++ t).data.length := by
    rw [String.data_append, List.length_append]
    have : 2 ≤ segmentsSQLHeader.data.length := by decide
    omega
  rw [head_trimSuffix_comma _ _ hhead hlen]
  simp

theorem sendObjects_spec (m : Migrator) (hO : isObjectsStmt m.objectsSQL = true) :
    samePars m.sendObjects m ∧ m.sendObjects.nextUUID = m.nextUUID ∧
    emittedObjects m.sendObjects = emittedObjects m ∧
    emittedSegments m.sendObjects = emittedSegments m := by
  rw [Migrator.sendObjects]
  by_cases h : m.objects.length = 0
  · rw [if_pos h]
    exact ⟨samePars.refl m, rfl, rfl, rfl⟩
  · rw [if_neg h]
    refine ⟨⟨rfl, rfl, rfl, rfl, rfl⟩, rfl, ?_, ?_⟩
    · simp [emittedObjects, objectsFlushed_append, objectsFlushed, hO]
    · simp [emittedSegments, segmentsFlushed_append, segmentsFlushed, hO]

theorem sendSegments_spec (m : Migrator) (hS : isObjectsStmt m.segmentsSQL = false) :
    samePars m.sendSegments m ∧ m.sendSegments.nextUUID = m.nextUUID ∧
    emittedObjects m.sendSegments = emittedObjects m ∧
    emittedSegments m.sendSegments = emittedSegments m := by
  rw [Migrator.sendSegments]
  by_cases h : m.segments.length = 0
  · rw [if_pos h]
    exact ⟨samePars.refl m, rfl, rfl, rfl⟩
  · rw [if_neg h]
    refine ⟨⟨rfl, rfl, rfl, rfl, rfl⟩, rfl, ?_, ?_⟩
    · simp [emittedObjects, objectsFlushed_append, objectsFlushed, hS]
    · simp [emittedSegments, segmentsFlushed_append, segmentsFlushed, hS]

theorem insertSegment_ok (m : Migrator) (streamID : Nat) (segmentIndex : Int)
    (ptr : Pointer) (smo : Option StreamMeta) (sm : StreamMeta)
    (hS : isObjectsStmt m.segmentsSQL = false)
    (hsm : resolveStreamMeta smo ptr = .ok sm) :
    ∃ m', m.insertSegment streamID segmentIndex ptr smo = .ok m' ∧
      samePars m' m ∧ m'.nextUUID = m.nextUUID ∧
      emittedObjects m' = emittedObjects m ∧
      emittedSegments m' = emittedSegments m ++
        segmentRowVals streamID (SegmentPosition.encode ⟨0, toUInt32 segmentIndex⟩)
          ptr (keyNonceOf sm).1 (keyNonceOf sm).2 := by
  simp only [Migrator.insertSegment, hsm]
  set row := segmentRowVals streamID
    (SegmentPosition.encode ⟨0, toUInt32 segmentIndex⟩)
    ptr (keyNonceOf sm).1 (keyNonceOf sm).2 with hrow
  set mrow : Migrator := { m with segments := m.segments ++ row } with hmrow
  have hrowObj : emittedObjects mrow = emittedObjects m := rfl
  have hrowSeg : emittedSegments mrow = emittedSegments m ++ row := by
    simp [emittedSegments, hmrow, List.append_assoc]
  by_cases hfl : mrow.batchSize ≤ mrow.segments.length / segmentsArgs
  · rw [if_pos hfl]
    obtain ⟨hp, hu, ho, hs⟩ := sendSegments_spec mrow hS
    exact ⟨mrow.sendSegments, rfl, hp.trans ⟨rfl, rfl, rfl, rfl, rfl⟩, hu,
      ho.trans hrowObj, hs.trans hrowSeg⟩
  · rw [if_neg hfl]
    exact ⟨mrow, rfl, ⟨rfl, rfl, rfl, rfl, rfl⟩, rfl, hrowObj, hrowSeg⟩

theorem fetchLoop_ok (db : PointerDB) (path : Bytes) (sid : Nat)
    (fetched : Nat → Pointer) (fsm : Nat → StreamMeta) :
    ∀ (k j : Nat) (m : Migrator),
    isObjectsStmt m.objectsSQL = true →
    isObjectsStmt m.segmentsSQL = false →
    (∀ i : Nat, j ≤ i → i < j + k →
      db.get (createPath m.projectID (i : Int) m.bucketName (some path))
        = some (.pointer (fetched i))) →
    (∀ i : Nat, j ≤ i → i < j + k → (fetched i).metadata = .streamMeta (fsm i)) →
    ∃ m', Migrator.fetchLoop db path sid k j m = .ok m' ∧
      samePars m' m ∧ m'.nextUUID = m.nextUUID ∧
      emittedObjects m' = emittedObjects m ∧
      emittedSegments m' = emittedSegments m ++ segmentRowsFor sid fetched fsm j k := by
  intro k
  induction k with
  | zero =>
    intro j m _ _ _ _
    exact ⟨m, rfl, samePars.refl m, rfl, rfl, by simp [segmentRowsFor]⟩
  | succ k ih =>
    intro j m hO hS hget hfm
    have hres : resolveStreamMeta none (fetched j) = .ok (fsm j) := by
      simp only [resolveStreamMeta, hfm j (le_refl j) (by omega), unmarshalStreamMeta]
    obtain ⟨m₁, hm₁, hpars₁, huuid₁, hobj₁, hseg₁⟩ :=
      insertSegment_ok m sid (j : Int) (fetched j) none (fsm j) hS hres
    have hget' : ∀ i : Nat, j + 1 ≤ i → i < (j + 1) + k →
        db.get (createPath m₁.projectID (i : Int) m₁.bucketName (some path))
          = some (.pointer (fetched i)) := by
      intro i h1 h2
      rw [hpars₁.1, hpars₁.2.1]
      exact hget i (by omega) (by omega)
    have hfm' : ∀ i : Nat, j + 1 ≤ i → i < (j + 1) + k →
        (fetched i).metadata = .streamMeta (fsm i) := by
      intro i h1 h2
      exact hfm i (by omega) (by omega)
    obtain ⟨m', hm', hpars', huuid', hobj', hseg'⟩ :=
      ih (j + 1) m₁ (by rw [hpars₁.2.2.2.1]; exact hO) (by rw [hpars₁.2.2.2.2]; exact hS)
        hget' hfm'
    refine ⟨m', ?_, hpars'.trans hpars₁, huuid'.trans huuid₁,
      hobj'.trans hobj₁, ?_⟩
    · rw [Migrator.fetchLoop, hget j (le_refl j) (by omega)]
      simp only [unmarshalPointer, hm₁, hm']
    · rw [hseg', hseg₁, segmentRowsFor, List.append_assoc]

theorem insertObject_ok (m : Migrator) (db : PointerDB) (path : Bytes) (ptr : Pointer)
    (sm : StreamMeta) (fetched : Nat → Pointer) (fsm : Nat → StreamMeta)
    (hO : isObjectsStmt m.objectsSQL = true)
    (hS : isObjectsStmt m.segmentsSQL = false)
    (hmeta : ptr.metadata = .streamMeta sm)
    (hN : sm.numberOfSegments ≠ 0)
    (hget : ∀ i : Nat, i < (sm.numberOfSegments - 1).toNat →
      db.get (createPath m.projectID (i : Int) m.bucketName (some path))
        = some (.pointer (fetched i)))
    (hfm : ∀ i : Nat, i < (sm.numberOfSegments - 1).toNat →
      (fetched i).metadata = .streamMeta (fsm i)) :
    ∃ m', m.insertObject db path ptr = .ok m' ∧
      samePars m' m ∧ m'.nextUUID = m.nextUUID + 1 ∧
      emittedObjects m' = emittedObjects m ++
        objectRowVals m.projectID m.bucketName path m.nextUUID ptr sm.numberOfSegments ∧
      emittedSegments m' = emittedSegments m ++
        segmentRowVals m.nextUUID
          (SegmentPosition.encode ⟨0, toUInt32 (sm.numberOfSegments - 1)⟩) ptr
          (keyNonceOf sm).1 (keyNonceOf sm).2 ++
        segmentRowsFor m.nextUUID fetched fsm 0 (sm.numberOfSegments - 1).toNat := by
  simp only [Migrator.insertObject, hmeta, unmarshalStreamMeta]
  rw [if_neg hN]
  set row := objectRowVals m.projectID m.bucketName path m.nextUUID ptr
    sm.numberOfSegments with hrowdef
  set m₁ : Migrator := { m with nextUUID := m.nextUUID + 1, objects := m.objects ++ row } with hm₁def
  have hm₁obj : emittedObjects m₁ = emittedObjects m ++ row := by
    simp [emittedObjects, hm₁def, List.append_assoc]
  have hm₁seg : emittedSegments m₁ = emittedSegments m := rfl
  have step₂ : ∀ m₂ : Migrator, samePars m₂ m ∧ m₂.nextUUID = m.nextUUID + 1 ∧
      emittedObjects m₂ = emittedObjects m ++ row ∧
      emittedSegments m₂ = emittedSegments m →
      ∃ m', (match m₂.insertSegment m.nextUUID (sm.numberOfSegments - 1) ptr (some sm) with
        | .err e m' => MigResult.err e m'
        | .ok m₃ => Migrator.fetchLoop db path m.nextUUID
            (sm.numberOfSegments - 1).toNat 0 m₃) = .ok m' ∧
      samePars m' m ∧ m'.nextUUID = m.nextUUID + 1 ∧
      emittedObjects m' = emittedObjects m ++ row ∧
      emittedSegments m' = emittedSegments m ++
        segmentRowVals m.nextUUID
          (SegmentPosition.encode ⟨0, toUInt32 (sm.numberOfSegments - 1)⟩) ptr
          (keyNonceOf sm).1 (keyNonceOf sm).2 ++
        segmentRowsFor m.nextUUID fetched fsm 0 (sm.numberOfSegments - 1).toNat := by
    intro m₂ ⟨hp₂, hu₂, ho₂, hs₂⟩
    obtain ⟨m₃, hm₃, hp₃, hu₃, ho₃, hs₃⟩ :=
      insertSegment_ok m₂ m.nextUUID (sm.numberOfSegments - 1) ptr (some sm) sm
        (by rw [hp₂.2.2.2.2]; exact hS) rfl
    have hget₃ : ∀ i : Nat, 0 ≤ i → i < 0 + (sm.numberOfSegments - 1).toNat →
        db.get (createPath m₃.projectID (i : Int) m₃.bucketName (some path))
          = some (.pointer (fetched i)) := by
      intro i _ h2
      rw [(hp₃.trans hp₂).1, (hp₃.trans hp₂).2.1]
      exact hget i (by omega)
    have hfm₃ : ∀ i : Nat, 0 ≤ i → i < 0 + (sm.numberOfSegments - 1).toNat →
        (fetched i).metadata = .streamMeta (fsm i) := by
      intro i _ h2
      exact hfm i (by omega)
    obtain ⟨m', hm', hp', hu', ho', hs'⟩ :=
      fetchLoop_ok db path m.nextUUID fetched fsm (sm.numberOfSegments - 1).toNat 0 m₃
        (by rw [(hp₃.trans hp₂).2.2.2.1]; exact hO)
        (by rw [(hp₃.trans hp₂).2.2.2.2]; exact hS) hget₃ hfm₃
    refine ⟨m', by rw [hm₃]; exact hm', (hp'.trans hp₃).trans hp₂,
      hu'.trans (hu₃.trans hu₂), (ho'.trans ho₃).trans ho₂, ?_⟩
    rw [hs', hs₃, hs₂]
  by_cases hfl : m.batchSize ≤ (m.objects ++ row).length / objectsArgs
  · rw [if_pos hfl]
    obtain ⟨hp, hu, ho, hs⟩ := sendObjects_spec m₁ hO
    exact step₂ m₁.sendObjects
      ⟨hp.trans ⟨rfl, rfl, rfl, rfl, rfl⟩, hu, ho.trans hm₁obj, hs.trans hm₁seg⟩
  · rw [if_neg hfl]
    exact step₂ m₁ ⟨⟨rfl, rfl, rfl, rfl, rfl⟩, rfl, hm₁obj, hm₁seg⟩

theorem insertSegment_ne_emptyKey (m : Migrator) (sid : Nat) (idx : Int)
    (ptr : Pointer) (smo : Option StreamMeta) (m' : Migrator) :
    m.insertSegment sid idx ptr smo ≠ .err .emptyKey m' := by
  intro h
  cases smo with
  | some sm =>
    simp only [Migrator.insertSegment, resolveStreamMeta] at h
    split at h <;> simp at h
  | none =>
    cases hm : ptr.metadata with
    | streamMeta sm =>
      simp only [Migrator.insertSegment, resolveStreamMeta, hm, unmarshalStreamMeta] at h
      split at h <;> simp at h
    | garbage =>
      simp only [Migrator.insertSegment, resolveStreamMeta, hm, unmarshalStreamMeta] at h
      simp at h

theorem fetchLoop_ne_emptyKey (db : PointerDB) (path : Bytes) (sid : Nat) :
    ∀ (k j : Nat) (m m' : Migrator),
    Migrator.fetchLoop db path sid k j m ≠ .err .emptyKey m' := by
  intro k
  induction k with
  | zero => intro j m m' h; simp [Migrator.fetchLoop] at h
  | succ k ih =>
    intro j m m' h
    rw [Migrator.fetchLoop] at h
    cases hg : db.get (createPath m.projectID (j : Int) m.bucketName (some path)) with
    | none => rw [hg] at h; simp at h
    | some v =>
      rw [hg] at h
      cases v with
      | garbage => simp [unmarshalPointer] at h
      | pointer p =>
        simp only [unmarshalPointer] at h
        cases hseg : m.insertSegment sid (j : Int) p none with
        | err e m₁ =>
          rw [hseg] at h
          simp at h
          obtain ⟨he, hm₁⟩ := h
          rw [he, hm₁] at hseg
          exact insertSegment_ne_emptyKey m sid (j : Int) p none m' hseg
        | ok m₁ =>
          rw [hseg] at h
          exact ih (j + 1) m₁ m' h

theorem insertObject_ne_emptyKey (m : Migrator) (db : PointerDB) (path : Bytes)
    (ptr : Pointer) (m' : Migrator) :
    m.insertObject db path ptr ≠ .err .emptyKey m' := by
  intro h
  cases hm : ptr.metadata with
  | garbage => simp [Migrator.insertObject, hm, unmarshalStreamMeta] at h
  | streamMeta sm =>
    simp only [Migrator.insertObject, hm, unmarshalStreamMeta] at h
    by_cases h0 : sm.numberOfSegments = 0
    · rw [if_pos h0] at h
      simp at h
    · rw [if_neg h0] at h
      split at h
      next e m₁ heq =>
        simp at h
        obtain ⟨he, hm₁⟩ := h
        rw [he, hm₁] at heq
        exact insertSegment_ne_emptyKey _ _ _ _ _ _ heq
      next m₁ heq =>
        exact fetchLoop_ne_emptyKey db path m.nextUUID
          (sm.numberOfSegments - 1).toNat 0 m₁ m' h

theorem processItem_ne_emptyKey (m : Migrator) (db : PointerDB)
    (item : Bytes × PtrBlob) (hkey : item.1 ≠ []) (m' : Migrator) :
    m.processItem db item ≠ .err .emptyKey m' := by
  intro h
  cases hv : item.2 with
  | garbage => simp [Migrator.processItem, hv, unmarshalPointer] at h
  | pointer p =>
    simp only [Migrator.processItem, hv, unmarshalPointer] at h
    cases hk : item.1 with
    | nil => exact hkey hk
    | cons c rest =>
      rw [hk] at h
      exact insertObject_ne_emptyKey _ db _ p m' h

theorem processItems_ne_emptyKey (db : PointerDB) :
    ∀ (items : List (Bytes × PtrBlob)) (m m' : Migrator),
    (∀ kv ∈ items, kv.1 ≠ []) →
    Migrator.processItems db items m ≠ .err .emptyKey m' := by
  intro items
  induction items with
  | nil => intro m m' _ h; simp [Migrator.processItems] at h
  | cons item rest ih =>
    intro m m' hkeys h
    rw [Migrator.processItems] at h
    cases hp : m.processItem db item with
    | err e m₁ =>
      rw [hp] at h
      simp at h
      obtain ⟨he, hm₁⟩ := h
      rw [he, hm₁] at hp
      exact processItem_ne_emptyKey m db item (hkeys item (by simp)) m' hp
    | ok m₁ =>
      rw [hp] at h
      exact ih m₁ m' (fun kv hkv => hkeys kv (by simp [hkv])) h

/-- When a legacy record's stream-level metadata declares zero segments,
`insertObject` rejects it with the `"unsupported case"` error before
appending anything: the migrator state is returned unchanged. -/
theorem insertObject_zero_count (m : Migrator) (db : PointerDB) (path : Bytes)
    (ptr : Pointer) (sm : StreamMeta)
    (hmeta : ptr.metadata = .streamMeta sm) (h0 : sm.numberOfSegments = 0) :
    m.insertObject db path ptr = .err .unsupportedCase m := by
  simp only [Migrator.insertObject, hmeta, unmarshalStreamMeta]
  rw [if_pos h0]

theorem toUInt32_int_small (x : Int) (h0 : 0 ≤ x) (h : x < 2 ^ 32) :
    toUInt32 x = x.toNat := by
  simp only [toUInt32]
  omega

theorem segmentRowsFor_eq_fetched (sid : Nat) (fetched : Nat → Pointer)
    (fsm : Nat → StreamMeta) (k : Nat) : ∀ j : Nat, j + k ≤ 2 ^ 32 →
    segmentRowsFor sid fetched fsm j k = fetchedSegmentRows sid fetched fsm j k := by
  induction k with
  | zero => intro j _; rfl
  | succ k ih =>
    intro j hj
    rw [segmentRowsFor, fetchedSegmentRows, ih (j + 1) (by omega)]
    have : toUInt32 (j : Int) = j := by
      rw [toUInt32_int_small (j : Int) (by omega) (by exact_mod_cast by omega)]
      exact Int.toNat_natCast j
    rw [this]

theorem fetchedSegmentRows_noKey (sid : Nat) (fetched : Nat → Pointer)
    (fsm : Nat → StreamMeta) (k : Nat) : ∀ j : Nat,
    (∀ i : Nat, j ≤ i → i < j + k → (fsm i).lastSegmentMeta = none) →
    fetchedSegmentRows sid fetched fsm j k = fetchedSegmentRowsNoKey sid fetched j k := by
  induction k with
  | zero => intro j _; rfl
  | succ k ih =>
    intro j hnl
    rw [fetchedSegmentRows, fetchedSegmentRowsNoKey,
      ih (j + 1) (fun i h1 h2 => hnl i (by omega) (by omega))]
    have : keyNonceOf (fsm j) = ([], []) := by
      rw [keyNonceOf, hnl j (le_refl j) (by omega)]
    rw [this]

/-- C1 (amended): a legacy record whose decoded stream-level metadata declares
zero segments makes `insertObject` fail with the `"unsupported case"` error
before emitting any Object or Segment values, and `MigrateBucket` propagates
that error: the migrator state is returned unchanged and the remaining listed
keys (`rest`) are not processed — the scope-wide run is aborted, not
continued. -/
theorem C1_zero_count_aborts_run (m : Migrator) (db : PointerDB)
    (key : Bytes) (blob : PtrBlob) (rest : List (Bytes × PtrBlob))
    (ptr : Pointer) (sm : StreamMeta) (c : Nat) (ktail : Bytes)
    (hkey : key = c :: ktail)
    (hblob : blob = .pointer ptr)
    (hmeta : ptr.metadata = .streamMeta sm)
    (h0 : sm.numberOfSegments = 0) :
    Migrator.processItems db ((key, blob) :: rest) m = .err .unsupportedCase m := by
  rw [Migrator.processItems]
  have hitem : m.processItem db (key, blob) = .err .unsupportedCase m := by
    simp only [Migrator.processItem, hblob, unmarshalPointer, hkey]
    exact insertObject_zero_count m db _ ptr sm hmeta h0
  rw [hitem]

theorem C1_zero_count_aborts_run_witness :
    zeroCountPtr.metadata
        = .streamMeta { numberOfSegments := 0, lastSegmentMeta := none } ∧
    Migrator.processItems zeroThenValidDB zeroThenValidDB.listing testMigrator
      = .err .unsupportedCase testMigrator :=
  ⟨rfl, C1_zero_count_aborts_run testMigrator zeroThenValidDB [47, 1]
    (.pointer zeroCountPtr) [([47, 2], .pointer oneSegPtr)] zeroCountPtr
    { numberOfSegments := 0, lastSegmentMeta := none } 47 [1] rfl rfl rfl rfl⟩

/-- C1 counterexample: with a zero-count record followed by a perfectly valid
record in the listing, the whole `MigrateBucket` run fails with the
per-object error and the state is unchanged — no rows are emitted for the
valid second key either, so processing of subsequent keys does *not*
continue as the claim states. -/
theorem C1_counterexample :
    testMigrator.migrateBucket zeroThenValidDB = .err .unsupportedCase testMigrator ∧
    emittedObjects testMigrator = [] ∧ emittedSegments testMigrator = [] := by
  refine ⟨?_, rfl, rfl⟩
  rfl

/-- C5 counterexample: in a two-segment migration whose *non-last* record
carries its own last-segment metadata section (key `[7]`), the emitted row
for the non-last segment (values 8–15 of the emitted segment stream; offset
3 within the row is the encrypted-key column) carries `.bytes [7]`, not the
empty key the claim requires for every non-last row. -/
theorem C5_counterexample :
    (match testMigrator.insertObject keyedSegDB [9] twoSegLastPtr with
      | .ok m' => (emittedSegments m').get? 11
      | .err _ _ => none) = some (.bytes [7]) ∧
    Val.bytes [7] ≠ Val.bytes [] := by
  constructor
  · rfl
  · decide

/-- C5 (amended): only under the legacy-format condition that non-last
records carry no last-segment section of their own do the non-last rows get
empty key and nonce: the last segment's row takes its encrypted key and nonce
from the stream-level metadata's last-segment section, and each non-last row
takes them from its *own* record's decoded metadata, which defaults to empty
exactly when that section is absent (hypothesis `hnl`). -/
theorem C5_last_segment_key_sourcing (m : Migrator) (db : PointerDB) (path : Bytes)
    (ptr : Pointer) (sm : StreamMeta) (fetched : Nat → Pointer) (fsm : Nat → StreamMeta)
    (hO : isObjectsStmt m.objectsSQL = true)
    (hS : isObjectsStmt m.segmentsSQL = false)
    (hmeta : ptr.metadata = .streamMeta sm)
    (hN : 1 ≤ sm.numberOfSegments)
    (hbound : sm.numberOfSegments ≤ 2 ^ 32)
    (hget : ∀ i : Nat, i < (sm.numberOfSegments - 1).toNat →
      db.get (createPath m.projectID (i : Int) m.bucketName (some path))
        = some (.pointer (fetched i)))
    (hfm : ∀ i : Nat, i < (sm.numberOfSegments - 1).toNat →
      (fetched i).metadata = .streamMeta (fsm i))
    (hnl : ∀ i : Nat, i < (sm.numberOfSegments - 1).toNat →
      (fsm i).lastSegmentMeta = none) :
    ∃ m', m.insertObject db path ptr = .ok m' ∧
      emittedSegments m' = emittedSegments m ++
        segmentRowVals m.nextUUID
          (SegmentPosition.encode ⟨0, (sm.numberOfSegments - 1).toNat⟩) ptr
          (keyNonceOf sm).1 (keyNonceOf sm).2 ++
        fetchedSegmentRowsNoKey m.nextUUID fetched 0 (sm.numberOfSegments - 1).toNat := by
  obtain ⟨m', hok, _, _, _, hs⟩ :=
    insertObject_ok m db path ptr sm fetched fsm hO hS hmeta (by omega) hget hfm
  refine ⟨m', hok, ?_⟩
  rw [hs, segmentRowsFor_eq_fetched _ _ _ _ 0 (by omega),
    fetchedSegmentRows_noKey _ _ _ _ 0 (fun i h1 h2 => hnl i (by omega)),
    toUInt32_int_small _ (by omega) (by omega)]

theorem C5_last_segment_key_sourcing_witness :
    twoSegLastPtr.metadata = .streamMeta twoSegMeta ∧
    (∃ m', testMigrator.insertObject twoSegDB [9] twoSegLastPtr = .ok m' ∧
      emittedSegments m' = emittedSegments testMigrator ++
        segmentRowVals testMigrator.nextUUID
          (SegmentPosition.encode ⟨0, (twoSegMeta.numberOfSegments - 1).toNat⟩)
          twoSegLastPtr (keyNonceOf twoSegMeta).1 (keyNonceOf twoSegMeta).2 ++
        fetchedSegmentRowsNoKey testMigrator.nextUUID (fun _ => seg0Ptr) 0
          (twoSegMeta.numberOfSegments - 1).toNat) :=
  ⟨rfl, C5_last_segment_key_sourcing testMigrator twoSegDB [9] twoSegLastPtr twoSegMeta
    (fun _ => seg0Ptr) (fun _ => seg0Meta) (by decide) (by decide) rfl (by decide)
    (by decide) (by decide) (by decide) (by decide)⟩

/-- C6 (amended): *provided the declared count is at most `2^32`*, a record
declaring `N ≥ 1` segments whose non-last records all resolve (`hget`) and
decode (`hfm`) makes `insertObject` succeed and emit exactly one object row —
`objectRowVals` lists, in order: project id, bucket, encrypted path, version
`-1`, the freshly synthesized stream id `m.nextUUID` (the supply is advanced
once), creation and expiration dates, status *committed*, the declared count
`N`, and the raw metadata — and exactly `N` segment rows of 8 values each:
first the row for index `N-1` built from the co-located record `ptr` with
position `SegmentPosition.encode ⟨0, N-1⟩`, then for each `j < N-1` a row
built from the individually fetched record `fetched j` with position
`SegmentPosition.encode ⟨0, j⟩`. The bound `hbound` is required: the source
casts the segment index with `uint32(segmentIndex)`, so for larger declared
counts the stored positions wrap modulo `2^32` and the claimed positions
`(0,0) .. (0,N-1)` are no longer all present. -/
theorem C6_migration_emits_rows (m : Migrator) (db : PointerDB) (path : Bytes)
    (ptr : Pointer) (sm : StreamMeta) (fetched : Nat → Pointer) (fsm : Nat → StreamMeta)
    (hO : isObjectsStmt m.objectsSQL = true)
    (hS : isObjectsStmt m.segmentsSQL = false)
    (hmeta : ptr.metadata = .streamMeta sm)
    (hN : 1 ≤ sm.numberOfSegments)
    (hbound : sm.numberOfSegments ≤ 2 ^ 32)
    (hget : ∀ i : Nat, i < (sm.numberOfSegments - 1).toNat →
      db.get (createPath m.projectID (i : Int) m.bucketName (some path))
        = some (.pointer (fetched i)))
    (hfm : ∀ i : Nat, i < (sm.numberOfSegments - 1).toNat →
      (fetched i).metadata = .streamMeta (fsm i)) :
    ∃ m', m.insertObject db path ptr = .ok m' ∧
      m'.nextUUID = m.nextUUID + 1 ∧
      emittedObjects m' = emittedObjects m ++
        objectRowVals m.projectID m.bucketName path m.nextUUID ptr
          sm.numberOfSegments ∧
      emittedSegments m' = emittedSegments m ++
        segmentRowVals m.nextUUID
          (SegmentPosition.encode ⟨0, (sm.numberOfSegments - 1).toNat⟩) ptr
          (keyNonceOf sm).1 (keyNonceOf sm).2 ++
        fetchedSegmentRows m.nextUUID fetched fsm 0 (sm.numberOfSegments - 1).toNat := by
  obtain ⟨m', hok, _, hu, ho, hs⟩ :=
    insertObject_ok m db path ptr sm fetched fsm hO hS hmeta (by omega) hget hfm
  refine ⟨m', hok, hu, ho, ?_⟩
  rw [hs, segmentRowsFor_eq_fetched _ _ _ _ 0 (by omega),
    toUInt32_int_small _ (by omega) (by omega)]

theorem C6_migration_emits_rows_witness :
    (1 : Int) ≤ twoSegMeta.numberOfSegments ∧
    (∃ m', testMigrator.insertObject twoSegDB [9] twoSegLastPtr = .ok m' ∧
      m'.nextUUID = testMigrator.nextUUID + 1 ∧
      emittedObjects m' = emittedObjects testMigrator ++
        objectRowVals testMigrator.projectID testMigrator.bucketName [9]
          testMigrator.nextUUID twoSegLastPtr twoSegMeta.numberOfSegments ∧
      emittedSegments m' = emittedSegments testMigrator ++
        segmentRowVals testMigrator.nextUUID
          (SegmentPosition.encode ⟨0, (twoSegMeta.numberOfSegments - 1).toNat⟩)
          twoSegLastPtr (keyNonceOf twoSegMeta).1 (keyNonceOf twoSegMeta).2 ++
        fetchedSegmentRows testMigrator.nextUUID (fun _ => seg0Ptr)
          (fun _ => seg0Meta) 0 (twoSegMeta.numberOfSegments - 1).toNat) :=
  ⟨by decide, C6_migration_emits_rows testMigrator twoSegDB [9] twoSegLastPtr twoSegMeta
    (fun _ => seg0Ptr) (fun _ => seg0Meta) (by decide) (by decide) rfl (by decide)
    (by decide) (by decide) (by decide)⟩

/-- C6 counterexample: migrating a record declaring `N = 2^32 + 1` segments,
every one of whose records decodes and fetches successfully, succeeds — but
the row built from the co-located record, the first segment row emitted
(value index 1 of the emitted segment stream is its position column), carries
`SegmentPosition.encode ⟨0, 0⟩`: the source's `uint32(segmentIndex)` cast
wraps `N - 1 = 2^32` to `0`. That differs from the
`SegmentPosition.encode ⟨0, N-1⟩` the claim assigns to this row (and it
collides with fetched row 0's position, so the claimed positions
`(0,0) .. (0,N-1)` are not all present). The run cannot be evaluated
concretely, so the equality is proved through the general step
specification. -/
theorem C6_counterexample :
    (match testMigrator.insertObject hugeDB [9] hugeLastPtr with
      | .ok m' => (emittedSegments m').get? 1
      | .err _ _ => none) = some (.pos (SegmentPosition.encode ⟨0, 0⟩)) ∧
    Val.pos (SegmentPosition.encode ⟨0, 0⟩)
      ≠ Val.pos (SegmentPosition.encode ⟨0, (hugeMeta.numberOfSegments - 1).toNat⟩) := by
  constructor
  · obtain ⟨m', hok, _, _, _, hs⟩ :=
      insertObject_ok testMigrator hugeDB [9] hugeLastPtr hugeMeta
        (fun _ => seg0Ptr) (fun _ => seg0Meta) (by decide) (by decide) rfl
        (by decide) (fun i _ => rfl) (fun i _ => rfl)
    rw [hok]
    dsimp only
    have hwrap : toUInt32 (hugeMeta.numberOfSegments - 1) = 0 := by decide
    rw [hs, hwrap]
    rfl
  · decide

/-- C7: a run that reaches end-of-stream (`processItems` returns `m₁`) with
`ro` objects rows and `rs` segments rows still buffered, each below the batch
threshold, ends by flushing each non-empty buffer exactly once with an insert
statement sized to exactly that buffer's remaining row count — the statement
text is the header plus exactly `ro` (resp. `rs`) placeholder tuples — while
an empty buffer is not flushed; the two buffers are handled independently. -/
theorem C7_final_flush (m : Migrator) (db : PointerDB) (m₁ : Migrator)
    (ro rs : Nat)
    (hrun : Migrator.processItems db db.listing m = .ok m₁)
    (ho : m₁.objects.length = objectsArgs * ro)
    (hs : m₁.segments.length = segmentsArgs * rs)
    (_hro : ro < m₁.batchSize) (_hrs : rs < m₁.batchSize) :
    m.migrateBucket db = .ok { m₁ with execLog := m₁.execLog
      ++ (if ro = 0 then [] else
        [(objectsSQLHeader ++ valuesTuples objectsTuple objectsArgs 1 ro, m₁.objects)])
      ++ (if rs = 0 then [] else
        [(segmentsSQLHeader ++ valuesTuples segmentsTuple segmentsArgs 1 rs, m₁.segments)]) } := by
  rw [Migrator.migrateBucket, hrun]
  have hdivo : m₁.objects.length / objectsArgs = ro := by
    rw [ho]; exact Nat.mul_div_cancel_left ro (by decide)
  have hdivs : m₁.segments.length / segmentsArgs = rs := by
    rw [hs]; exact Nat.mul_div_cancel_left rs (by decide)
  simp only [Migrator.finalFlush]
  by_cases h1 : ro = 0
  · have hlen1 : ¬ m₁.objects.length ≠ 0 := by rw [ho, h1]; simp [objectsArgs]
    rw [if_neg hlen1, if_pos h1]
    by_cases h2 : rs = 0
    · have hlen2 : ¬ m₁.segments.length ≠ 0 := by rw [hs, h2]; simp [segmentsArgs]
      rw [if_neg hlen2, if_pos h2]
      simp
    · have hlen2 : m₁.segments.length ≠ 0 := by
        rw [hs]; simp only [segmentsArgs]; omega
      rw [if_pos hlen2, if_neg h2, hdivs, preparSegmentsSQL_eq rs (by omega)]
      simp
  · have hlen1 : m₁.objects.length ≠ 0 := by
      rw [ho]; simp only [objectsArgs]; omega
    rw [if_pos hlen1, if_neg h1, hdivo, preparObjectsSQL_eq ro (by omega)]
    by_cases h2 : rs = 0
    · have hlen2 : ¬ m₁.segments.length ≠ 0 := by rw [hs, h2]; simp [segmentsArgs]
      rw [if_neg hlen2, if_pos h2]
      simp
    · have hlen2 : m₁.segments.length ≠ 0 := by
        rw [hs]; simp only [segmentsArgs]; omega
      rw [if_pos hlen2, if_neg h2, hdivs, preparSegmentsSQL_eq rs (by omega)]

theorem C7_final_flush_witness :
    Migrator.processItems oneObjDB oneObjDB.listing testMigrator = .ok oneObjM1 ∧
    testMigrator.migrateBucket oneObjDB = .ok { oneObjM1 with execLog := oneObjM1.execLog
      ++ (if 1 = 0 then [] else
        [(objectsSQLHeader ++ valuesTuples objectsTuple objectsArgs 1 1, oneObjM1.objects)])
      ++ (if 1 = 0 then [] else
        [(segmentsSQLHeader ++ valuesTuples segmentsTuple segmentsArgs 1 1, oneObjM1.segments)]) } :=
  ⟨by decide, C7_final_flush testMigrator oneObjDB oneObjM1 1 1 (by decide) (by decide)
    (by decide) (by decide) (by decide)⟩

/-- C8: for every row count `n ≥ 1` the generated objects insert statement is
the column header followed by exactly `n` parenthesized tuples of
`objectsArgs = 10` placeholders each, numbered consecutively `$1 .. $(10n)`
(`valuesTuples` steps the start index by 10 per row), joined by single commas
with no trailing comma and no padding; likewise the segments statement with
exactly `n` tuples of `segmentsArgs = 8` placeholders `$1 .. $(8n)`. -/
theorem C8_insert_statement_shape (n : Nat) (h : 1 ≤ n) :
    preparObjectsSQL n = objectsSQLHeader ++ valuesTuples objectsTuple objectsArgs 1 n ∧
    preparSegmentsSQL n = segmentsSQLHeader ++ valuesTuples segmentsTuple segmentsArgs 1 n :=
  ⟨preparObjectsSQL_eq n h, preparSegmentsSQL_eq n h⟩

theorem C8_insert_statement_shape_witness :
    1 ≤ 2 ∧
    (preparObjectsSQL 2 = objectsSQLHeader ++ valuesTuples objectsTuple objectsArgs 1 2 ∧
    preparSegmentsSQL 2 = segmentsSQLHeader ++ valuesTuples segmentsTuple segmentsArgs 1 2) :=
  ⟨by decide, C8_insert_statement_shape 2 (by decide)⟩

/-- C9: every segment row the pipeline emits — all of them pass through
`insertSegment` — is an 8-value row whose last value, the `node_aliases`
column, is the encoding of the single-element alias sequence `[1]`,
regardless of the record's actual remote piece list. -/
theorem C9_node_aliases_constant (m : Migrator) (sid : Nat) (idx : Int)
    (ptr : Pointer) (smo : Option StreamMeta) (m' : Migrator)
    (hS : isObjectsStmt m.segmentsSQL = false)
    (h : m.insertSegment sid idx ptr smo = .ok m') :
    ∃ row, emittedSegments m' = emittedSegments m ++ row ∧
      row.length = segmentsArgs ∧
      row.getLast? = some (.bytes (NodeAliases.encode [1])) := by
  cases hres : resolveStreamMeta smo ptr with
  | error e =>
    rw [Migrator.insertSegment, hres] at h
    simp at h
  | ok sm =>
    obtain ⟨m'', hm'', _, _, _, hs⟩ := insertSegment_ok m sid idx ptr smo sm hS hres
    have heq : MigResult.ok m'' = MigResult.ok m' := hm''.symm.trans h
    have heq2 : m'' = m' := by injection heq
    subst heq2
    exact ⟨_, hs, by simp [segmentRowVals, segmentsArgs],
      by simp [segmentRowVals]⟩

theorem C9_node_aliases_constant_witness :
    isObjectsStmt testMigrator.segmentsSQL = false ∧
    (∃ row, emittedSegments oneSegM1 = emittedSegments testMigrator ++ row ∧
      row.length = segmentsArgs ∧
      row.getLast? = some (.bytes (NodeAliases.encode [1]))) :=
  ⟨by decide, C9_node_aliases_constant testMigrator 0 0 oneSegPtr (some oneSegMeta)
    oneSegM1 (by decide) (by decide)⟩

/-- C10: the per-key normalization in `MigrateBucket` reads byte 0 of each
listed key unguarded; under the precondition that every key the legacy
listing yields is non-empty, the run never takes the out-of-bounds
(`emptyKey`) error branch. -/
theorem C10_nonempty_keys_no_oob (m : Migrator) (db : PointerDB) (m' : Migrator)
    (hkeys : ∀ kv ∈ db.listing, kv.1 ≠ []) :
    m.migrateBucket db ≠ .err .emptyKey m' := by
  intro h
  rw [Migrator.migrateBucket] at h
  cases hp : Migrator.processItems db db.listing m with
  | err e m₁ =>
    rw [hp] at h
    simp at h
    obtain ⟨he, hm₁⟩ := h
    rw [he, hm₁] at hp
    exact processItems_ne_emptyKey db db.listing m m' hkeys hp
  | ok m₁ =>
    rw [hp] at h
    simp at h

theorem C10_nonempty_keys_no_oob_witness :
    (∀ kv ∈ oneObjDB.listing, kv.1 ≠ []) ∧
    testMigrator.migrateBucket oneObjDB ≠ .err .emptyKey testMigrator :=
  ⟨by decide, C10_nonempty_keys_no_oob testMigrator oneObjDB testMigrator (by decide)⟩

/-- C2 counterexample: on a conflicting update the call fails with the
concurrency-conflict class, but its message is
`"segment remote_pieces field was changed"` (as the test `part_000` pins),
not `"segment pieces field was changed"` as the claim states. -/
theorem C2_counterexample :
    updateSegmentPieces oneSegmentState conflictOpts
      = .error (.valueChanged "segment remote_pieces field was changed") ∧
    ("segment remote_pieces field was changed" : String)
      ≠ "segment pieces field was changed" := by
  constructor
  · rfl
  · decide

/-- C2 (amended): on well-formed `OldPieces`/`NewPieces`, when the target
segment exists but its stored `pieces` differ from the supplied `OldPieces`,
the call fails with the concurrency-conflict error whose message is
`"segment remote_pieces field was changed"`; the error result carries no new
state, so the stored rows are left completely unchanged. -/
theorem C2_conflict_fails (st : MetabaseState) (opts : UpdateSegmentPiecesOpts)
    (seg : Segment)
    (hsid : opts.streamID ≠ 0)
    (hold : validatePieces "OldPieces" opts.oldPieces = none)
    (hnew : validatePieces "NewPieces" opts.newPieces = none)
    (hfind : st.segments.find? (segmentKeyMatch opts) = some seg)
    (hne : seg.pieces ≠ opts.oldPieces) :
    updateSegmentPieces st opts
      = .error (.valueChanged "segment remote_pieces field was changed") := by
  rw [updateSegmentPieces, if_neg hsid, hold, hnew, hfind]
  dsimp only
  rw [if_neg hne]

theorem C2_conflict_fails_witness :
    seg51.pieces ≠ conflictOpts.oldPieces ∧
    updateSegmentPieces oneSegmentState conflictOpts
      = .error (.valueChanged "segment remote_pieces field was changed") :=
  ⟨by decide, C2_conflict_fails oneSegmentState conflictOpts seg51 (by decide)
    (by decide) (by decide) (by decide) (by decide)⟩

/-- C3: on a successful update the target row's `pieces` becomes exactly
`NewPieces` while every other field of that row is unchanged (the updated row
is `{old row with pieces := NewPieces}`), every non-target segment row is
unchanged, row count and order are preserved, and the object-level rows
(size, count, status) are untouched. -/
theorem C3_success_frame (st : MetabaseState) (opts : UpdateSegmentPiecesOpts)
    (seg : Segment)
    (hsid : opts.streamID ≠ 0)
    (hold : validatePieces "OldPieces" opts.oldPieces = none)
    (hnew : validatePieces "NewPieces" opts.newPieces = none)
    (hfind : st.segments.find? (segmentKeyMatch opts) = some seg)
    (heq : seg.pieces = opts.oldPieces) :
    ∃ st', updateSegmentPieces st opts = .ok st' ∧
      st'.objects = st.objects ∧
      st'.segments.length = st.segments.length ∧
      (∀ i : Nat, ∀ hi : i < st.segments.length, ∀ hi' : i < st'.segments.length,
        (segmentKeyMatch opts (st.segments.get ⟨i, hi⟩) = false →
          st'.segments.get ⟨i, hi'⟩ = st.segments.get ⟨i, hi⟩) ∧
        (segmentKeyMatch opts (st.segments.get ⟨i, hi⟩) = true →
          st'.segments.get ⟨i, hi'⟩
            = { st.segments.get ⟨i, hi⟩ with pieces := opts.newPieces })) := by
  refine ⟨{ st with segments := st.segments.map (fun s =>
      if segmentKeyMatch opts s then { s with pieces := opts.newPieces } else s) },
    ?_, rfl, by simp, ?_⟩
  · rw [updateSegmentPieces, if_neg hsid, hold, hnew, hfind]
    dsimp only
    rw [if_pos heq]
  · intro i hi hi'
    constructor
    · intro hmatch
      simp only [List.get_eq_getElem] at hmatch
      simp [List.getElem_map, hmatch]
    · intro hmatch
      simp only [List.get_eq_getElem] at hmatch
      simp [List.getElem_map, hmatch]

theorem C3_success_frame_witness :
    seg51.pieces = matchOpts.oldPieces ∧
    (∃ st', updateSegmentPieces oneSegmentState matchOpts = .ok st' ∧
      st'.objects = oneSegmentState.objects ∧
      st'.segments.length = oneSegmentState.segments.length ∧
      (∀ i : Nat, ∀ hi : i < oneSegmentState.segments.length,
        ∀ hi' : i < st'.segments.length,
        (segmentKeyMatch matchOpts (oneSegmentState.segments.get ⟨i, hi⟩) = false →
          st'.segments.get ⟨i, hi'⟩ = oneSegmentState.segments.get ⟨i, hi⟩) ∧
        (segmentKeyMatch matchOpts (oneSegmentState.segments.get ⟨i, hi⟩) = true →
          st'.segments.get ⟨i, hi'⟩
            = { oneSegmentState.segments.get ⟨i, hi⟩ with
                pieces := matchOpts.newPieces }))) :=
  ⟨by decide, C3_success_frame oneSegmentState matchOpts seg51 (by decide) (by decide)
    (by decide) (by decide) (by decide)⟩

/-- C4 counterexample: a call whose `OldPieces` violate the non-empty
invariant but whose `StreamID` is also missing fails with
`"StreamID missing"` — not, as the claim requires for every call with an
invalid piece list, with a message naming the offending field and rule
(`"OldPieces: pieces missing"`). -/
theorem C4_counterexample :
    updateSegmentPieces { objects := [], segments := [] } zeroStreamOpts
      = .error (.invalidRequest "StreamID missing") ∧
    UpdateError.invalidRequest "StreamID missing"
      ≠ .invalidRequest "OldPieces: pieces missing" := by
  constructor
  · rfl
  · decide

/-- C4 (amended): provided `StreamID` is set, a call whose `OldPieces` or
`NewPieces` violate one of the three §4.1 invariants fails, for *every*
metabase state alike (so before any storage access), with an invalid-request
error whose message is the offending field name followed by the first
violated rule's text in check order — `"pieces missing"`,
`"duplicated piece number N"` / `"pieces should be ordered"` from the
adjacent ascending scan, then `"piece number N is missing storage node id"`
— with `OldPieces` checked before `NewPieces`. -/
theorem C4_validation_errors (opts : UpdateSegmentPiecesOpts)
    (hsid : opts.streamID ≠ 0) :
    (∀ (st : MetabaseState) (msg : String),
      firstPieceFailure opts.oldPieces = some msg →
      updateSegmentPieces st opts = .error (.invalidRequest ("OldPieces: " ++ msg))) ∧
    (∀ (st : MetabaseState) (msg : String),
      firstPieceFailure opts.oldPieces = none →
      firstPieceFailure opts.newPieces = some msg →
      updateSegmentPieces st opts = .error (.invalidRequest ("NewPieces: " ++ msg))) := by
  constructor
  · intro st msg hmsg
    rw [updateSegmentPieces, if_neg hsid]
    rw [show validatePieces "OldPieces" opts.oldPieces
      = some ("OldPieces: " ++ msg) from by rw [validatePieces, hmsg]; rfl]
  · intro st msg hnone hmsg
    rw [updateSegmentPieces, if_neg hsid]
    rw [show validatePieces "OldPieces" opts.oldPieces = none from by
      rw [validatePieces, hnone]; rfl]
    rw [show validatePieces "NewPieces" opts.newPieces
      = some ("NewPieces: " ++ msg) from by rw [validatePieces, hmsg]; rfl]

theorem C4_validation_errors_witness :
    unorderedOpts.streamID ≠ 0 ∧
    updateSegmentPieces oneSegmentState unorderedOpts
      = .error (.invalidRequest ("OldPieces: " ++ "pieces should be ordered")) :=
  ⟨by decide, (C4_validation_errors unorderedOpts (by decide)).1 oneSegmentState
    "pieces should be ordered" (by decide)⟩

end Storj
